import Mathlib

/-!
Verification of the thread-scoped conversation state manager in `src/main.py`
(FastAPI chatbot backend).  The Python module keeps a process-wide dict
`conversation_history : Dict[str, List]` mapping thread ids to lists of
langchain message objects; the `chat` handler resolves/generates a thread id,
appends a `HumanMessage`, invokes the model with the full history, appends the
reply, and returns the reply content plus the thread id; the history handler
renders stored messages to `{role, content}` pairs, inferring the role from the
runtime class name and skipping objects without a `content` attribute.

We embed the store as an insertion-ordered association list (faithful to a
Python dict's iteration/identity semantics for our purposes), stored messages
as a class-name string plus an optional content string (a Python object may or
may not carry a `content` attribute), and the model invocation boundary as an
explicit function parameter returning `Except` (an exception-raising call).
-/

namespace ChatBackend

/-- A stored message object: its runtime class name and its `content`
attribute, `none` when the object has no such attribute
(mirrors the untyped `List` the Python dict stores). -/
structure StoredMsg where
  className : String
  content : Option String
deriving DecidableEq, Repr

/-- `HumanMessage(content=...)` from langchain_core: class name
`"HumanMessage"`, content present. -/
def HumanMessage (content : String) : StoredMsg :=
  { className := "HumanMessage", content := some content }

/-- `AIMessage` as returned by `model.invoke`: class name `"AIMessage"`,
content present. -/
def AIMessage (content : String) : StoredMsg :=
  { className := "AIMessage", content := some content }

/-- The process-wide `conversation_history` dict, as an insertion-ordered
association list from thread id to message list. -/
def Store : Type := List (String × List StoredMsg)

/-- Dict lookup: `conversation_history[thread_id]` / `thread_id in conversation_history`. -/
def storeFind : Store → String → Option (List StoredMsg)
  | [], _ => none
  | (k, v) :: rest, tid => if k = tid then some v else storeFind rest tid

/-- `thread_id in conversation_history`. -/
def storeContains (s : Store) (tid : String) : Bool :=
  (storeFind s tid).isSome

/-- Dict write `conversation_history[thread_id] = msgs`: replaces the value at
an existing key, otherwise inserts at the end (dict insertion order). -/
def storeSet : Store → String → List StoredMsg → Store
  | [], tid, msgs => [(tid, msgs)]
  | (k, v) :: rest, tid, msgs =>
      if k = tid then (k, msgs) :: rest else (k, v) :: storeSet rest tid msgs

/-- Request body of `POST /chat` after validation (`ChatRequest` pydantic model). -/
structure ChatRequest where
  message : String
  thread_id : Option String
deriving DecidableEq, Repr

/-- Response body of `POST /chat` (`ChatResponse` pydantic model). -/
structure ChatResponse where
  message : String
  thread_id : String
deriving DecidableEq, Repr

/-- `thread_id = request.thread_id or str(uuid.uuid4())`: Python `or` takes the
right operand when the left is falsy, i.e. `None` or the empty string.
`fresh` stands for the `str(uuid.uuid4())` sample drawn by this call. -/
def resolveThreadId (tid : Option String) (fresh : String) : String :=
  match tid with
  | none => fresh
  | some s => if s = "" then fresh else s

/-- Lines 56-61 of `main.py`: get-or-create the history entry, then append the
user's `HumanMessage` to it. -/
def appendUser (store : Store) (tid : String) (input : String) : Store :=
  let store1 := if storeContains store tid then store else storeSet store tid []
  storeSet store1 tid ((storeFind store1 tid).getD [] ++ [HumanMessage input])

/-- The `chat` handler (`main.py` lines 50-75).  `invoke` is the model
invocation boundary (`model.invoke`), which receives the thread's full history
and either returns the reply content of its `AIMessage` or raises; `fresh` is
the uuid4 string this call would generate.  A raised exception is rendered as
`Except.error` (the handler converts it to an HTTP 500). -/
def chat (invoke : List StoredMsg → Except String String) (fresh : String)
    (req : ChatRequest) (store : Store) : Except String ChatResponse × Store :=
  let tid := resolveThreadId req.thread_id fresh
  let store2 := appendUser store tid req.message
  let hist1 := (storeFind store2 tid).getD []
  match invoke hist1 with
  | .error e => (.error e, store2)
  | .ok reply =>
      (.ok { message := reply, thread_id := tid },
       storeSet store2 tid (hist1 ++ [AIMessage reply]))

/-- One rendered history entry `{role, content}`. -/
structure RoleContent where
  role : String
  content : String
deriving DecidableEq, Repr

/-- Lines 86-91 of `main.py`: a stored object is rendered only when it has a
`content` attribute; the role is `"user"` exactly when the runtime class is
named `"HumanMessage"`, `"assistant"` otherwise. -/
def renderMsg (m : StoredMsg) : Option RoleContent :=
  match m.content with
  | none => none
  | some c =>
      some { role := if m.className = "HumanMessage" then "user" else "assistant",
             content := c }

/-- The `get_chat_history` handler (`main.py` lines 77-93): unknown ids yield
an empty list; otherwise each stored message with a `content` attribute is
rendered in order. -/
def get_chat_history (store : Store) (tid : String) : List RoleContent :=
  match storeFind store tid with
  | none => []
  | some msgs => msgs.filterMap renderMsg

/-- The `GET /threads/{thread_id}/history` endpoint as a state transformer:
the handler only reads `conversation_history`, so the store passes through. -/
def get_history_endpoint (store : Store) (tid : String) :
    List RoleContent × Store :=
  (get_chat_history store tid, store)

/-- Iterated calls of the history endpoint, threading the store through. -/
def iterHistoryStore (tid : String) : Nat → Store → Store
  | 0, store => store
  | n + 1, store => iterHistoryStore tid n (get_history_endpoint store tid).2

/-! ### Store lemmas -/

theorem storeFind_storeSet_self (s : Store) (k : String) (v : List StoredMsg) :
    storeFind (storeSet s k v) k = some v := by
  induction s with
  | nil => simp [storeSet, storeFind]
  | cons hd tl ih =>
      obtain ⟨k', v'⟩ := hd
      by_cases h : k' = k
      · simp [storeSet, storeFind, h]
      · simp [storeSet, storeFind, h, ih]

theorem storeFind_storeSet_ne (s : Store) (k k' : String) (v : List StoredMsg)
    (h : k' ≠ k) : storeFind (storeSet s k v) k' = storeFind s k' := by
  induction s with
  | nil => simp [storeSet, storeFind, Ne.symm h]
  | cons hd tl ih =>
      obtain ⟨k₀, v₀⟩ := hd
      by_cases hk : k₀ = k
      · subst hk
        simp [storeSet, storeFind, Ne.symm h]
      · simp [storeSet, storeFind, hk]
        by_cases hk' : k₀ = k'
        · simp [hk']
        · simp [hk', ih]

theorem storeFind_appendUser_self (s : Store) (tid : String) (input : String) :
    storeFind (appendUser s tid input) tid =
      some ((storeFind s tid).getD [] ++ [HumanMessage input]) := by
  unfold appendUser
  by_cases h : storeContains s tid
  · simp [h, storeFind_storeSet_self]
  · have hn : storeFind s tid = none := by
      unfold storeContains at h
      exact Option.not_isSome_iff_eq_none.mp (by simpa using h)
    simp [h, storeFind_storeSet_self, hn]

theorem storeFind_appendUser_ne (s : Store) (tid other : String) (input : String)
    (h : other ≠ tid) :
    storeFind (appendUser s tid input) other = storeFind s other := by
  unfold appendUser
  by_cases hc : storeContains s tid
  · simp [hc, storeFind_storeSet_ne _ _ _ _ h]
  · simp [hc, storeFind_storeSet_ne _ _ _ _ h]

/-- The thread id a `chat` call actually uses. -/
def chatTid (fresh : String) (req : ChatRequest) : String :=
  resolveThreadId req.thread_id fresh

/-- The thread's history as it stands when `model.invoke` is called: the
pre-turn history with the new user message appended. -/
def historyAtInvoke (store : Store) (fresh : String) (req : ChatRequest) :
    List StoredMsg :=
  (storeFind store (chatTid fresh req)).getD [] ++ [HumanMessage req.message]

theorem chat_store_eq (invoke : List StoredMsg → Except String String)
    (fresh : String) (req : ChatRequest) (store : Store) :
    (chat invoke fresh req store).2 =
      match invoke (historyAtInvoke store fresh req) with
      | .error _ => appendUser store (chatTid fresh req) req.message
      | .ok reply =>
          storeSet (appendUser store (chatTid fresh req) req.message)
            (chatTid fresh req)
            (historyAtInvoke store fresh req ++ [AIMessage reply]) := by
  unfold chat historyAtInvoke chatTid
  simp only [storeFind_appendUser_self, Option.getD_some]
  cases invoke ((storeFind store (resolveThreadId req.thread_id fresh)).getD []
      ++ [HumanMessage req.message]) <;> rfl

theorem chat_result_eq (invoke : List StoredMsg → Except String String)
    (fresh : String) (req : ChatRequest) (store : Store) :
    (chat invoke fresh req store).1 =
      match invoke (historyAtInvoke store fresh req) with
      | .error e => .error e
      | .ok reply => .ok { message := reply, thread_id := chatTid fresh req } := by
  unfold chat historyAtInvoke chatTid
  simp only [storeFind_appendUser_self, Option.getD_some]
  cases invoke ((storeFind store (resolveThreadId req.thread_id fresh)).getD []
      ++ [HumanMessage req.message]) <;> rfl

/-- N turns submitted serially to the same (nonempty) thread id, every
invocation succeeding with reply `f history`. -/
def runTurns (f : List StoredMsg → String) (fresh tid : String)
    (inputs : List String) (store : Store) : Store :=
  inputs.foldl (fun s input =>
    (chat (fun h => .ok (f h)) fresh ⟨input, some tid⟩ s).2) store

/-- The stored history produced by running the inputs serially on top of
`hist`: each turn appends the user message, then the reply computed from the
history including that user message. -/
def serialHistory (f : List StoredMsg → String) (hist : List StoredMsg) :
    List String → List StoredMsg
  | [] => hist
  | i :: rest =>
      serialHistory f
        ((hist ++ [HumanMessage i]) ++ [AIMessage (f (hist ++ [HumanMessage i]))])
        rest

/-- The reply contents produced turn by turn in the serial run. -/
def serialReplies (f : List StoredMsg → String) (hist : List StoredMsg) :
    List String → List String
  | [] => []
  | i :: rest =>
      f (hist ++ [HumanMessage i]) ::
        serialReplies f
          ((hist ++ [HumanMessage i]) ++ [AIMessage (f (hist ++ [HumanMessage i]))])
          rest

/-- `user i₁, assistant r₁, user i₂, assistant r₂, …`: the transcript shape
the spec promises for serial turns. -/
def interleaveTranscript : List String → List String → List RoleContent
  | i :: is, r :: rs =>
      { role := "user", content := i } ::
        { role := "assistant", content := r } :: interleaveTranscript is rs
  | _, _ => []

/-- `chat` calls with no `thread_id`, numbered from `k`; `gen k` is the uuid4
string the `k`-th call draws.  Returns the thread ids of the responses. -/
def runGeneratedChats (f : List StoredMsg → String) (gen : Nat → String) :
    Nat → List String → Store → List String × Store
  | _, [], store => ([], store)
  | k, m :: ms, store =>
      let step := chat (fun h => .ok (f h)) (gen k) ⟨m, none⟩ store
      let rest := runGeneratedChats f gen (k + 1) ms step.2
      (match step.1 with
       | .ok res => res.thread_id :: rest.1
       | .error _ => rest.1,
       rest.2)

/-- A concrete collision-free id stream standing in for uuid4 samples. -/
def sampleIdStream (n : Nat) : String := String.mk (List.replicate n 'a')

/-- Lines 63-67 of `main.py` as a store transformer: read the thread's
current history, invoke the model on it (`f`), append the reply. -/
def appendAssistant (f : List StoredMsg → String) (store : Store)
    (tid : String) : Store :=
  storeSet store tid
    ((storeFind store tid).getD [] ++ [AIMessage (f ((storeFind store tid).getD []))])

/-- One submitted turn: its (already resolved) thread id and input text. -/
structure Turn where
  tid : String
  input : String

/-- State of two concurrently submitted turns.  `p1`/`p2` is each turn's
phase: `0` not started, `1` user message appended and `model.invoke` in
flight, `2` finished.  `holder` is the turn the event loop is currently
executing.  The `chat` handler is an `async def` containing no `await`, and
`model.invoke` is a synchronous call, so under asyncio the event loop runs a
started handler to completion before any other handler makes progress:
`holder` stays set across a turn's whole append-invoke-append sequence. -/
structure Sys2 where
  store : Store
  p1 : Nat
  p2 : Nat
  holder : Option Nat

/-- Interleaving semantics of two turns against `main.py`'s handler.  A turn
starts only when the event loop is idle, appends its user message, and keeps
the loop until it finishes by appending the assistant message; turn 2 was
submitted after turn 1, so the loop does not start it first (FIFO dispatch). -/
inductive Step (f : List StoredMsg → String) (t1 t2 : Turn) :
    Sys2 → Sys2 → Prop where
  | start1 (s : Sys2) (h : s.p1 = 0) (hh : s.holder = none) :
      Step f t1 t2 s ⟨appendUser s.store t1.tid t1.input, 1, s.p2, some 1⟩
  | finish1 (s : Sys2) (h : s.p1 = 1) (hh : s.holder = some 1) :
      Step f t1 t2 s ⟨appendAssistant f s.store t1.tid, 2, s.p2, none⟩
  | start2 (s : Sys2) (h : s.p2 = 0) (hh : s.holder = none) (hfifo : 1 ≤ s.p1) :
      Step f t1 t2 s ⟨appendUser s.store t2.tid t2.input, s.p1, 1, some 2⟩
  | finish2 (s : Sys2) (h : s.p2 = 1) (hh : s.holder = some 2) :
      Step f t1 t2 s ⟨appendAssistant f s.store t2.tid, s.p1, 2, none⟩

/-- States reachable from an empty store with both turns pending. -/
inductive Reach (f : List StoredMsg → String) (t1 t2 : Turn) : Sys2 → Prop where
  | init : Reach f t1 t2 ⟨[], 0, 0, none⟩
  | next {s s' : Sys2} : Reach f t1 t2 s → Step f t1 t2 s s' → Reach f t1 t2 s'

/-- Store after turn 1 appended its user message. -/
def stageA (t1 : Turn) : Store := appendUser [] t1.tid t1.input

/-- Store after turn 1 finished. -/
def stageB (f : List StoredMsg → String) (t1 : Turn) : Store :=
  appendAssistant f (stageA t1) t1.tid

/-- Store after turn 2 appended its user message. -/
def stageC (f : List StoredMsg → String) (t1 t2 : Turn) : Store :=
  appendUser (stageB f t1) t2.tid t2.input

/-- Store after both turns finished. -/
def stageD (f : List StoredMsg → String) (t1 t2 : Turn) : Store :=
  appendAssistant f (stageC f t1 t2) t2.tid

/-- A JSON value of the request body, for modelling pydantic validation. -/
inductive JsonValue where
  | JStr (s : String)
  | JNum (n : Int)
  | JBool (b : Bool)
  | JNull
deriving DecidableEq, Repr

/-- The raw `POST /chat` body before validation: each field either absent or
some JSON value. -/
structure RawChatRequest where
  message : Option JsonValue
  thread_id : Option JsonValue
deriving DecidableEq, Repr

/-- Whether an optional field holds a JSON string. -/
def isStringValue : Option JsonValue → Bool
  | some (JsonValue.JStr _) => true
  | _ => false

/-- Pydantic validation of `ChatRequest` (`main.py` lines 37-39): `message`
is a required `str` (missing or non-string values are rejected with a 422
before the handler runs); `thread_id` is `Optional[str] = None` (absent or
JSON null become `None`, non-string values are rejected). -/
def validateChatRequest (raw : RawChatRequest) : Except String ChatRequest :=
  match raw.message with
  | some (JsonValue.JStr s) =>
      match raw.thread_id with
      | none => .ok { message := s, thread_id := none }
      | some JsonValue.JNull => .ok { message := s, thread_id := none }
      | some (JsonValue.JStr t) => .ok { message := s, thread_id := some t }
      | some _ => .error "invalid thread_id"
  | some _ => .error "invalid message"
  | none => .error "missing message"

/-- The full `POST /chat` endpoint: FastAPI validates the body against the
`ChatRequest` model and only invokes the handler on success. -/
def chat_endpoint (invoke : List StoredMsg → Except String String)
    (fresh : String) (raw : RawChatRequest) (store : Store) :
    Except String ChatResponse × Store :=
  match validateChatRequest raw with
  | .error e => (.error e, store)
  | .ok req => chat invoke fresh req store

/-- A `chat` turn touches no store entry other than its own thread's. -/
theorem chat_find_other (invoke : List StoredMsg → Except String String)
    (fresh : String) (req : ChatRequest) (store : Store) (other : String)
    (h : other ≠ chatTid fresh req) :
    storeFind (chat invoke fresh req store).2 other = storeFind store other := by
  rw [chat_store_eq]
  cases invoke (historyAtInvoke store fresh req) with
  | error e => exact storeFind_appendUser_ne _ _ _ _ h
  | ok r =>
      show storeFind (storeSet (appendUser store (chatTid fresh req) req.message)
        (chatTid fresh req) (historyAtInvoke store fresh req ++ [AIMessage r]))
        other = storeFind store other
      rw [storeFind_storeSet_ne _ _ _ _ h]
      exact storeFind_appendUser_ne _ _ _ _ h

/-- C3: when the model invocation raises, the turn returns an error and the
thread's history grows by exactly the one user message; a successful turn
grows it by exactly the user message followed by the assistant message. -/
theorem c3_failure_single_append (invoke : List StoredMsg → Except String String)
    (fresh : String) (req : ChatRequest) (store : Store) :
    (∀ e, invoke (historyAtInvoke store fresh req) = .error e →
      (chat invoke fresh req store).1 = .error e ∧
      storeFind (chat invoke fresh req store).2 (chatTid fresh req) =
        some ((storeFind store (chatTid fresh req)).getD []
          ++ [HumanMessage req.message])) ∧
    (∀ r, invoke (historyAtInvoke store fresh req) = .ok r →
      (chat invoke fresh req store).1 = .ok { message := r, thread_id := chatTid fresh req } ∧
      storeFind (chat invoke fresh req store).2 (chatTid fresh req) =
        some ((storeFind store (chatTid fresh req)).getD []
          ++ [HumanMessage req.message, AIMessage r])) := by
  constructor
  · intro e he
    constructor
    · rw [chat_result_eq, he]
    · rw [chat_store_eq, he]
      exact storeFind_appendUser_self _ _ _
  · intro r hr
    constructor
    · rw [chat_result_eq, hr]
    · rw [chat_store_eq, hr, storeFind_storeSet_self]
      unfold historyAtInvoke
      simp

/-- Witness for C3: a turn whose invoker raises on thread `"t"` of an empty
store returns the error and leaves exactly the user message stored. -/
theorem c3_failure_single_append_witness :
    (chat (fun _ => .error "boom") "f" ⟨"hi", some "t"⟩ []).1 = .error "boom" ∧
    storeFind (chat (fun _ => .error "boom") "f" ⟨"hi", some "t"⟩ []).2 "t" =
      some [HumanMessage "hi"] := by
  have h := (c3_failure_single_append (fun _ => .error "boom") "f"
    ⟨"hi", some "t"⟩ []).1 "boom" rfl
  exact ⟨h.1, by simpa [chatTid, resolveThreadId, storeFind] using h.2⟩

/-- C4: a thread id absent from the store yields an empty history, the
endpoint never mutates the store, and any number of repeated calls returns
the same empty result. -/
theorem c4_unknown_thread_empty (store : Store) (tid : String)
    (h : storeFind store tid = none) :
    get_chat_history store tid = [] ∧
    (∀ n : Nat, iterHistoryStore tid n store = store) ∧
    (∀ n : Nat, get_chat_history (iterHistoryStore tid n store) tid = []) := by
  have hiter : ∀ n : Nat, iterHistoryStore tid n store = store := by
    intro n
    induction n with
    | zero => rfl
    | succ m ih => simpa [iterHistoryStore, get_history_endpoint] using ih
  have hempty : get_chat_history store tid = [] := by
    unfold get_chat_history
    rw [h]
  exact ⟨hempty, hiter, fun n => by rw [hiter n]; exact hempty⟩

/-- Witness for C4: reading thread `"nonexistent"` of the empty store five
times returns `[]` each time and leaves the store empty. -/
theorem c4_unknown_thread_empty_witness :
    storeFind ([] : Store) "nonexistent" = none ∧
    get_chat_history ([] : Store) "nonexistent" = [] ∧
    iterHistoryStore "nonexistent" 5 ([] : Store) = [] ∧
    get_chat_history (iterHistoryStore "nonexistent" 5 ([] : Store)) "nonexistent" = [] := by
  have h := c4_unknown_thread_empty ([] : Store) "nonexistent" rfl
  exact ⟨rfl, h.1, h.2.1 5, h.2.2 5⟩

/-- C5: a turn on one thread leaves every other thread's store entry — hence
its history — unchanged. -/
theorem c5_thread_isolation (invoke : List StoredMsg → Except String String)
    (fresh : String) (req : ChatRequest) (store : Store) (other : String)
    (h : other ≠ chatTid fresh req) :
    storeFind (chat invoke fresh req store).2 other = storeFind store other ∧
    get_chat_history (chat invoke fresh req store).2 other =
      get_chat_history store other := by
  have hfind := chat_find_other invoke fresh req store other h
  refine ⟨hfind, ?_⟩
  unfold get_chat_history
  rw [hfind]

/-- Witness for C5: a turn on thread `"A"` leaves thread `"B"`'s entry and
rendered history untouched. -/
theorem c5_thread_isolation_witness :
    ("B" : String) ≠ chatTid "f" ⟨"hello", some "A"⟩ ∧
    storeFind (chat (fun _ => .ok "hi") "f" ⟨"hello", some "A"⟩
        [("B", [HumanMessage "x"])]).2 "B" = some [HumanMessage "x"] ∧
    get_chat_history (chat (fun _ => .ok "hi") "f" ⟨"hello", some "A"⟩
        [("B", [HumanMessage "x"])]).2 "B" = [⟨"user", "x"⟩] := by
  have h := c5_thread_isolation (fun _ => .ok "hi") "f" ⟨"hello", some "A"⟩
    [("B", [HumanMessage "x"])] "B" (by decide)
  refine ⟨by decide, ?_, ?_⟩
  · rw [h.1]; rfl
  · rw [h.2]; rfl

/-- C7: a successful turn returns exactly the invoker's reply content together
with the thread id used — the caller's id when supplied (and nonempty),
otherwise the generated one — and that same content is appended as the
thread's assistant message. -/
theorem c7_reply_content_and_tid (invoke : List StoredMsg → Except String String)
    (fresh : String) (req : ChatRequest) (store : Store) (reply : String)
    (h : invoke (historyAtInvoke store fresh req) = .ok reply) :
    (chat invoke fresh req store).1 =
      .ok { message := reply, thread_id := chatTid fresh req } ∧
    storeFind (chat invoke fresh req store).2 (chatTid fresh req) =
      some (historyAtInvoke store fresh req ++ [AIMessage reply]) ∧
    (req.thread_id = none → chatTid fresh req = fresh) ∧
    (∀ t, req.thread_id = some t → t ≠ "" → chatTid fresh req = t) := by
  refine ⟨?_, ?_, ?_, ?_⟩
  · rw [chat_result_eq, h]
  · rw [chat_store_eq, h]
    exact storeFind_storeSet_self _ _ _
  · intro hn; simp [chatTid, resolveThreadId, hn]
  · intro t ht hne; simp [chatTid, resolveThreadId, ht, hne]

/-- Witness for C7: with a constant invoker replying `"pong"`, the turn on
thread `"t"` returns `pong`/`t` and stores `pong` as the assistant message. -/
theorem c7_reply_content_and_tid_witness :
    (chat (fun _ => .ok "pong") "f" ⟨"ping", some "t"⟩ []).1 =
      .ok { message := "pong", thread_id := "t" } ∧
    storeFind (chat (fun _ => .ok "pong") "f" ⟨"ping", some "t"⟩ []).2 "t" =
      some [HumanMessage "ping", AIMessage "pong"] := by
  have h := c7_reply_content_and_tid (fun _ => .ok "pong") "f"
    ⟨"ping", some "t"⟩ [] "pong" rfl
  constructor
  · have := h.1
    simpa [chatTid, resolveThreadId] using this
  · have := h.2.1
    simpa [chatTid, resolveThreadId, historyAtInvoke, storeFind] using this

/-- C9: a caller-supplied empty-string `thread_id` behaves exactly like an
absent one: the turn is identical to a no-`thread_id` turn, the id used is the
freshly generated one, and the store's (absent) entry for `""` is untouched,
so thread `""` can never be continued. -/
theorem c9_empty_tid_is_absent (invoke : List StoredMsg → Except String String)
    (fresh : String) (msg : String) (store : Store) (hfresh : fresh ≠ "") :
    chat invoke fresh ⟨msg, some ""⟩ store = chat invoke fresh ⟨msg, none⟩ store ∧
    chatTid fresh ⟨msg, some ""⟩ = fresh ∧
    storeFind (chat invoke fresh ⟨msg, some ""⟩ store).2 "" = storeFind store "" := by
  refine ⟨rfl, rfl, ?_⟩
  exact chat_find_other invoke fresh ⟨msg, some ""⟩ store ""
    (by simpa [chatTid, resolveThreadId] using Ne.symm hfresh)

/-- Witness for C9: with generated id `"fresh-id"`, a turn carrying
`thread_id = ""` equals the turn carrying no `thread_id`, uses `"fresh-id"`,
and creates no entry for `""`. -/
theorem c9_empty_tid_is_absent_witness :
    ("fresh-id" : String) ≠ "" ∧
    chat (fun _ => .ok "r") "fresh-id" ⟨"hi", some ""⟩ [] =
      chat (fun _ => .ok "r") "fresh-id" ⟨"hi", none⟩ [] ∧
    chatTid "fresh-id" ⟨"hi", some ""⟩ = "fresh-id" ∧
    storeFind (chat (fun _ => .ok "r") "fresh-id" ⟨"hi", some ""⟩ []).2 "" = none := by
  have h := c9_empty_tid_is_absent (fun _ => .ok "r") "fresh-id" "hi" []
    (by decide)
  exact ⟨by decide, h.1, h.2.1, by rw [h.2.2]; rfl⟩

theorem renderMsg_human (c : String) :
    renderMsg (HumanMessage c) = some { role := "user", content := c } := rfl

theorem renderMsg_ai (c : String) :
    renderMsg (AIMessage c) = some { role := "assistant", content := c } := rfl

theorem get_chat_history_eq_getD (store : Store) (tid : String) :
    get_chat_history store tid =
      ((storeFind store tid).getD []).filterMap renderMsg := by
  unfold get_chat_history
  cases storeFind store tid <;> rfl

/-- A successful `chat` turn stores the invoke-time history plus the reply. -/
theorem chat_find_self_ok (f : List StoredMsg → String) (fresh : String)
    (req : ChatRequest) (store : Store) :
    storeFind (chat (fun h => .ok (f h)) fresh req store).2 (chatTid fresh req) =
      some (historyAtInvoke store fresh req ++
        [AIMessage (f (historyAtInvoke store fresh req))]) := by
  rw [chat_store_eq]
  exact storeFind_storeSet_self _ _ _

theorem chatTid_some (fresh tid : String) (msg : String) (h : tid ≠ "") :
    chatTid fresh { message := msg, thread_id := some tid } = tid := by
  simp [chatTid, resolveThreadId, h]

theorem runTurns_find (f : List StoredMsg → String) (fresh tid : String)
    (htid : tid ≠ "") :
    ∀ (inputs : List String) (store : Store),
      (storeFind (runTurns f fresh tid inputs store) tid).getD [] =
        serialHistory f ((storeFind store tid).getD []) inputs := by
  intro inputs
  induction inputs with
  | nil => intro store; rfl
  | cons i rest ih =>
      intro store
      have hstep : runTurns f fresh tid (i :: rest) store =
          runTurns f fresh tid rest
            (chat (fun h => .ok (f h)) fresh ⟨i, some tid⟩ store).2 := rfl
      rw [hstep, ih]
      have hfound := chat_find_self_ok f fresh ⟨i, some tid⟩ store
      rw [chatTid_some fresh tid i htid] at hfound
      rw [hfound]
      simp [serialHistory, historyAtInvoke, chatTid_some fresh tid i htid,
        chatTid, resolveThreadId, htid]

theorem filterMap_serialHistory (f : List StoredMsg → String) :
    ∀ (inputs : List String) (hist : List StoredMsg),
      (serialHistory f hist inputs).filterMap renderMsg =
        hist.filterMap renderMsg ++
          interleaveTranscript inputs (serialReplies f hist inputs) := by
  intro inputs
  induction inputs with
  | nil => intro hist; simp [serialHistory, serialReplies, interleaveTranscript]
  | cons i rest ih =>
      intro hist
      rw [serialHistory, ih, serialReplies]
      simp [interleaveTranscript, List.filterMap_append, renderMsg_human, renderMsg_ai]

theorem serialReplies_length (f : List StoredMsg → String) :
    ∀ (inputs : List String) (hist : List StoredMsg),
      (serialReplies f hist inputs).length = inputs.length := by
  intro inputs
  induction inputs with
  | nil => intro hist; rfl
  | cons i rest ih => intro hist; simp [serialReplies, ih]

theorem interleaveTranscript_length :
    ∀ (inputs replies : List String), replies.length = inputs.length →
      (interleaveTranscript inputs replies).length = 2 * inputs.length := by
  intro inputs
  induction inputs with
  | nil => intro replies _; cases replies <;> simp [interleaveTranscript]
  | cons i rest ih =>
      intro replies hlen
      cases replies with
      | nil => simp at hlen
      | cons r rs =>
          simp only [List.length_cons, Nat.succ.injEq] at hlen
          simp [interleaveTranscript, ih rs hlen]
          omega

/-- C1: N successful turns submitted serially with the same thread id leave a
history that `get_history` renders as exactly 2N messages alternating
`user i₁, assistant r₁, user i₂, assistant r₂, …` in submission order, each
user entry carrying the submitted input text. -/
theorem c1_serial_turns_transcript (f : List StoredMsg → String)
    (fresh tid : String) (inputs : List String) (htid : tid ≠ "") :
    get_chat_history (runTurns f fresh tid inputs []) tid =
      interleaveTranscript inputs (serialReplies f [] inputs) ∧
    (serialReplies f [] inputs).length = inputs.length ∧
    (get_chat_history (runTurns f fresh tid inputs []) tid).length =
      2 * inputs.length := by
  have htrans : get_chat_history (runTurns f fresh tid inputs []) tid =
      interleaveTranscript inputs (serialReplies f [] inputs) := by
    rw [get_chat_history_eq_getD, runTurns_find f fresh tid htid inputs []]
    have h := filterMap_serialHistory f inputs []
    simpa [storeFind] using h
  refine ⟨htrans, serialReplies_length f inputs [], ?_⟩
  rw [htrans]
  exact interleaveTranscript_length inputs _ (serialReplies_length f inputs [])

/-- Witness for C1: two serial turns on thread `"t"` with a constant invoker
render as `user a, assistant re, user b, assistant re` — four messages. -/
theorem c1_serial_turns_transcript_witness :
    ("t" : String) ≠ "" ∧
    get_chat_history (runTurns (fun _ => "re") "f" "t" ["a", "b"] []) "t" =
      [⟨"user", "a"⟩, ⟨"assistant", "re"⟩, ⟨"user", "b"⟩, ⟨"assistant", "re"⟩] ∧
    (get_chat_history (runTurns (fun _ => "re") "f" "t" ["a", "b"] []) "t").length
      = 2 * 2 := by
  have h := c1_serial_turns_transcript (fun _ => "re") "f" "t" ["a", "b"]
    (by decide)
  refine ⟨by decide, ?_, ?_⟩
  · rw [h.1]; rfl
  · rw [h.2.2]; rfl

theorem runGeneratedChats_ids (f : List StoredMsg → String) (gen : Nat → String) :
    ∀ (inputs : List String) (k : Nat) (store : Store),
      (runGeneratedChats f gen k inputs store).1 =
        (List.range inputs.length).map (fun i => gen (k + i)) := by
  intro inputs
  induction inputs with
  | nil => intro k store; rfl
  | cons m ms ih =>
      intro k store
      have hres : (chat (fun h => .ok (f h)) (gen k) ⟨m, none⟩ store).1 =
          .ok { message := f (historyAtInvoke store (gen k) ⟨m, none⟩),
                thread_id := gen k } := by
        rw [chat_result_eq]
        rfl
      rw [runGeneratedChats]
      simp only [hres]
      rw [ih (k + 1)]
      simp only [List.length_cons]
      rw [List.range_succ_eq_map]
      simp only [List.map_cons, List.map_map, Nat.add_zero]
      congr 1
      apply List.map_congr_left
      intro i _
      simp only [Function.comp_apply]
      congr 1
      omega

/-- C6: with the uuid4 samples modelled as a collision-free (injective) id
stream, N `chat` calls carrying no `thread_id` return exactly the N freshly
generated ids, which are pairwise distinct. -/
theorem c6_generated_ids_distinct (f : List StoredMsg → String)
    (gen : Nat → String) (hgen : Function.Injective gen) (k : Nat)
    (inputs : List String) (store : Store) :
    (runGeneratedChats f gen k inputs store).1 =
      (List.range inputs.length).map (fun i => gen (k + i)) ∧
    (runGeneratedChats f gen k inputs store).1.length = inputs.length ∧
    (runGeneratedChats f gen k inputs store).1.Nodup := by
  have hids := runGeneratedChats_ids f gen inputs k store
  refine ⟨hids, ?_, ?_⟩
  · rw [hids]; simp
  · rw [hids]
    refine List.Nodup.map ?_ (List.nodup_range _)
    intro a b hab
    have := hgen hab
    omega

/-- Witness for C6: three no-`thread_id` calls against a concrete injective id
stream return the first three generated ids, pairwise distinct. -/
theorem c6_generated_ids_distinct_witness :
    (runGeneratedChats (fun _ => "r") sampleIdStream 0 ["x", "y", "z"] []).1 =
      [sampleIdStream 0, sampleIdStream 1, sampleIdStream 2] ∧
    (runGeneratedChats (fun _ => "r") sampleIdStream 0 ["x", "y", "z"] []).1.Nodup := by
  have hinj : Function.Injective sampleIdStream := by
    intro a b hab
    have hd := congrArg String.data hab
    simp only [sampleIdStream] at hd
    have := congrArg List.length hd
    simpa using this
  have h := c6_generated_ids_distinct (fun _ => "r") sampleIdStream hinj 0
    ["x", "y", "z"] []
  constructor
  · rw [h.1]; rfl
  · exact h.2.2

/-- C8: a request whose `message` field is missing or not a string is rejected
by validation before the handler runs: the endpoint returns an error and the
store is exactly the one passed in. -/
theorem c8_malformed_rejected_before_mutation
    (invoke : List StoredMsg → Except String String) (fresh : String)
    (raw : RawChatRequest) (store : Store)
    (hbad : isStringValue raw.message = false) :
    (chat_endpoint invoke fresh raw store).2 = store ∧
    ∃ e, (chat_endpoint invoke fresh raw store).1 = .error e := by
  unfold chat_endpoint validateChatRequest
  cases hm : raw.message with
  | none => exact ⟨rfl, "missing message", rfl⟩
  | some v =>
      cases v with
      | JStr s => rw [hm] at hbad; simp [isStringValue] at hbad
      | JNum n => exact ⟨rfl, "invalid message", rfl⟩
      | JBool b => exact ⟨rfl, "invalid message", rfl⟩
      | JNull => exact ⟨rfl, "invalid message", rfl⟩

/-- Witness for C8: a body with no `message` field leaves a nonempty store
untouched and yields an error; so does a numeric `message`. -/
theorem c8_malformed_rejected_before_mutation_witness :
    isStringValue (RawChatRequest.mk none none).message = false ∧
    (chat_endpoint (fun _ => .ok "r") "f" ⟨none, none⟩
      [("t", [HumanMessage "x"])]).2 = [("t", [HumanMessage "x"])] ∧
    (chat_endpoint (fun _ => .ok "r") "f" ⟨some (JsonValue.JNum 3), none⟩
      [("t", [HumanMessage "x"])]).2 = [("t", [HumanMessage "x"])] := by
  refine ⟨rfl, ?_, ?_⟩
  · exact (c8_malformed_rejected_before_mutation (fun _ => .ok "r") "f"
      ⟨none, none⟩ [("t", [HumanMessage "x"])] rfl).1
  · exact (c8_malformed_rejected_before_mutation (fun _ => .ok "r") "f"
      ⟨some (JsonValue.JNum 3), none⟩ [("t", [HumanMessage "x"])] rfl).1

theorem length_filterMap_renderMsg :
    ∀ msgs : List StoredMsg,
      (msgs.filterMap renderMsg).length =
        (msgs.filter (fun m => m.content.isSome)).length := by
  intro msgs
  induction msgs with
  | nil => rfl
  | cons m rest ih =>
      cases hc : m.content with
      | none => simp [List.filterMap_cons, renderMsg, hc, List.filter_cons, ih]
      | some c => simp [List.filterMap_cons, renderMsg, hc, List.filter_cons, ih]

/-- C10: the rendered history is the in-order image of the stored objects
under `renderMsg`; any stored object whose class is not named `HumanMessage`
is reported with role `assistant` (the role is recomputed from the runtime
class, never stored), and objects without a `content` attribute are silently
dropped — one output entry per content-bearing stored object. -/
theorem c10_role_inference_and_omission (store : Store) (tid : String)
    (msgs : List StoredMsg) (h : storeFind store tid = some msgs) :
    get_chat_history store tid = msgs.filterMap renderMsg ∧
    (∀ m ∈ msgs, ∀ c, m.className ≠ "HumanMessage" → m.content = some c →
      renderMsg m = some { role := "assistant", content := c }) ∧
    (∀ m ∈ msgs, m.content = none → renderMsg m = none) ∧
    (get_chat_history store tid).length =
      (msgs.filter (fun m => m.content.isSome)).length := by
  have hrender : get_chat_history store tid = msgs.filterMap renderMsg := by
    unfold get_chat_history
    rw [h]
  refine ⟨hrender, ?_, ?_, ?_⟩
  · intro m _ c hcn hc
    simp [renderMsg, hc, hcn]
  · intro m _ hc
    simp [renderMsg, hc]
  · rw [hrender]
    exact length_filterMap_renderMsg msgs

/-- Witness for C10: a thread holding a `SystemMessage`, an object without a
`content` attribute, and a `HumanMessage` renders as an `assistant` entry and
a `user` entry — the contentless object is dropped. -/
theorem c10_role_inference_and_omission_witness :
    storeFind [("t", [StoredMsg.mk "SystemMessage" (some "s"),
        StoredMsg.mk "Weird" none, HumanMessage "h"])] "t" =
      some [StoredMsg.mk "SystemMessage" (some "s"),
        StoredMsg.mk "Weird" none, HumanMessage "h"] ∧
    get_chat_history [("t", [StoredMsg.mk "SystemMessage" (some "s"),
        StoredMsg.mk "Weird" none, HumanMessage "h"])] "t" =
      [{ role := "assistant", content := "s" }, { role := "user", content := "h" }] ∧
    renderMsg (StoredMsg.mk "SystemMessage" (some "s")) =
      some { role := "assistant", content := "s" } ∧
    renderMsg (StoredMsg.mk "Weird" none) = none := by
  have h := c10_role_inference_and_omission
    [("t", [StoredMsg.mk "SystemMessage" (some "s"),
      StoredMsg.mk "Weird" none, HumanMessage "h"])] "t"
    [StoredMsg.mk "SystemMessage" (some "s"),
      StoredMsg.mk "Weird" none, HumanMessage "h"] rfl
  refine ⟨rfl, by rw [h.1]; rfl, ?_, ?_⟩
  · exact h.2.1 (StoredMsg.mk "SystemMessage" (some "s")) (by simp) "s"
      (by decide) rfl
  · exact h.2.2.1 (StoredMsg.mk "Weird" none) (by simp) rfl

/-- The two phases of the step semantics compose to exactly a successful
`chat` turn's store effect. -/
theorem chat_ok_eq_phases (f : List StoredMsg → String) (fresh : String)
    (req : ChatRequest) (store : Store) :
    (chat (fun h => .ok (f h)) fresh req store).2 =
      appendAssistant f (appendUser store (chatTid fresh req) req.message)
        (chatTid fresh req) := by
  rw [chat_store_eq]
  unfold appendAssistant
  rw [storeFind_appendUser_self]
  rfl

/-- Every reachable state of the two-turn system is one of the five states of
the serial execution `start 1, finish 1, start 2, finish 2`. -/
theorem reach_cases (f : List StoredMsg → String) (t1 t2 : Turn) :
    ∀ s : Sys2, Reach f t1 t2 s →
      s = ⟨[], 0, 0, none⟩ ∨
      s = ⟨stageA t1, 1, 0, some 1⟩ ∨
      s = ⟨stageB f t1, 2, 0, none⟩ ∨
      s = ⟨stageC f t1 t2, 2, 1, some 2⟩ ∨
      s = ⟨stageD f t1 t2, 2, 2, none⟩ := by
  intro s hr
  induction hr with
  | init => exact Or.inl rfl
  | next hr hstep ih =>
      rcases ih with h | h | h | h | h <;> subst h <;> cases hstep <;>
        simp_all [stageA, stageB, stageC, stageD]

/-- C2 (amended): two turns with inputs `a` then `b` submitted in that order
to the same thread run serially — the handler holds the event loop for its
whole append-invoke-append sequence — so when both have finished, the thread's
history is `user a, assistant f[…a], user b, assistant f[…b]`: `a`'s user
message precedes `b`'s, and each reply is computed from a history that ends
with its own user message. -/
theorem c2_same_thread_serialized (f : List StoredMsg → String)
    (tid a b : String) (s : Sys2)
    (hr : Reach f ⟨tid, a⟩ ⟨tid, b⟩ s) (h1 : s.p1 = 2) (h2 : s.p2 = 2) :
    storeFind s.store tid =
      some [HumanMessage a,
            AIMessage (f [HumanMessage a]),
            HumanMessage b,
            AIMessage (f [HumanMessage a, AIMessage (f [HumanMessage a]),
              HumanMessage b])] := by
  rcases reach_cases f ⟨tid, a⟩ ⟨tid, b⟩ s hr with h | h | h | h | h <;>
    subst h <;>
    simp_all [stageA, stageB, stageC, stageD, appendUser, appendAssistant,
      storeSet, storeFind, storeContains]

/-- Witness for C2 (amended): the serial trace of turns `"A"` then `"B"` on
thread `"t"` with a constant invoker reaches the final state, whose history is
`user A, assistant r, user B, assistant r`. -/
theorem c2_same_thread_serialized_witness :
    storeFind (stageD (fun _ => "r") ⟨"t", "A"⟩ ⟨"t", "B"⟩) "t" =
      some [HumanMessage "A", AIMessage "r", HumanMessage "B", AIMessage "r"] := by
  have h0 : Reach (fun _ => "r") ⟨"t", "A"⟩ ⟨"t", "B"⟩ ⟨[], 0, 0, none⟩ :=
    Reach.init
  have h1 := Reach.next h0 (Step.start1 ⟨[], 0, 0, none⟩ rfl rfl)
  have h2 := Reach.next h1
    (Step.finish1 ⟨appendUser [] "t" "A", 1, 0, some 1⟩ rfl rfl)
  have h3 := Reach.next h2
    (Step.start2 ⟨appendAssistant (fun _ => "r") (appendUser [] "t" "A") "t",
      2, 0, none⟩ rfl rfl (by decide))
  have h4 := Reach.next h3
    (Step.finish2 ⟨appendUser
      (appendAssistant (fun _ => "r") (appendUser [] "t" "A") "t") "t" "B",
      2, 1, some 2⟩ rfl rfl)
  have h := c2_same_thread_serialized (fun _ => "r") "t" "A" "B" _ h4 rfl rfl
  simpa [stageD, stageC, stageB, stageA] using h

/-- Counterexample to C2 as stated: turns on distinct thread ids do block each
other.  While turn 1 (thread `"threadA"`) is mid-invocation, turn 2 (thread
`"threadB"`) can make no progress at all — no reachable state has turn 1 in
flight and turn 2 anywhere past its start. -/
theorem c2_distinct_threads_do_block :
    ¬ ∃ s : Sys2, Reach (fun _ => "r") ⟨"threadA", "A"⟩ ⟨"threadB", "B"⟩ s ∧
      s.p1 = 1 ∧ s.p2 ≠ 0 := by
  rintro ⟨s, hr, hp1, hp2⟩
  rcases reach_cases (fun _ => "r") ⟨"threadA", "A"⟩ ⟨"threadB", "B"⟩ s hr with
    h | h | h | h | h <;> subst h <;> simp_all

end ChatBackend
